import Mathlib

/-!
Verification of the configuration logic of the Humio exporter
(`exporter/humioexporter/config.go`).

The Go code is shallowly embedded: the `Config` struct becomes a Lean
structure, the pointer-receiver methods `Validate`, `sanitize` and
`getEndpoint` become pure functions (mutation is modelled by returning
the updated configuration), Go's `map[string]string` becomes an
association list with Go's single-binding update semantics, and the
parts of the Go standard library the code calls (`net/url.Parse`,
`url.URL.String`, `path.Join`, `path.Clean`) are modelled for the
fragment of URLs this exporter handles (no userinfo, query, fragment,
IPv6 bracket syntax or percent-escapes).
-/

namespace Humio

/-! ## Go string maps as association lists -/

/-- Association-list model of Go's `map[string]string`.  Go maps have
unique keys; lookup returns the first binding, and update replaces the
first binding in place (or appends when the key is absent), which
coincides with Go map semantics on duplicate-free lists and is total on
all lists. -/
abbrev HMap := List (String × String)

/-- Lookup in a Go string map: `v, ok := m[k]` with `ok` as `Option`. -/
def hmGet (m : HMap) (k : String) : Option String :=
  match m with
  | [] => none
  | (k0, v0) :: rest => if k0 = k then some v0 else hmGet rest k

/-- Update of a Go string map: `m[k] = v`. -/
def hmSet (m : HMap) (k v : String) : HMap :=
  match m with
  | [] => [(k, v)]
  | (k0, v0) :: rest => if k0 = k then (k, v) :: rest else (k0, v0) :: hmSet rest k v

/-! ## Model of Go `path.Clean` and `path.Join`

All character-level work is done on `List Char` with structural
recursion, so every definition reduces inside the kernel and concrete
instances can be settled by `decide`. -/

/-- Split a character list on a separator character; the result always
has one more group than there are separators. -/
def splitChar (sep : Char) : List Char → List (List Char)
  | [] => [[]]
  | ch :: rest =>
    match splitChar sep rest with
    | [] => [[]]
    | g :: gs => if ch = sep then [] :: g :: gs else (ch :: g) :: gs

/-- Join character-list segments with a separator character. -/
def joinSep (sep : Char) : List (List Char) → List Char
  | [] => []
  | g :: gs =>
    match gs with
    | [] => g
    | _ :: _ => g ++ sep :: joinSep sep gs

/-- One step of the segment form of Go's `path.Clean`: empty segments
and `.` are dropped, `..` pops the previous segment (kept literally when
there is nothing to pop and the path is not rooted), and any other
segment is pushed. -/
def cleanFold (rooted : Bool) (acc : List (List Char)) (s : List Char) : List (List Char) :=
  if s = [] ∨ s = ['.'] then acc
  else if s = ['.', '.'] then
    match acc with
    | [] => if rooted then [] else [['.', '.']]
    | a :: rest => if a = ['.', '.'] then ['.', '.'] :: a :: rest else rest
  else s :: acc

/-- Model of Go `path.Clean`, written on `/`-separated segments: it
removes duplicate slashes, `.` segments and resolvable `..` segments,
returns `.` for an empty relative result and keeps a leading slash. -/
def pathClean (p : String) : String :=
  if p = "" then "."
  else
    let cs := p.toList
    let rooted := match cs with | '/' :: _ => true | _ => false
    let out := (List.foldl (cleanFold rooted) [] (splitChar '/' cs)).reverse
    let body := joinSep '/' out
    if rooted then String.mk ('/' :: body)
    else if body = [] then "."
    else String.mk body

/-- Model of Go `path.Join` on two elements: leading empty elements are
skipped and the rest are joined with `/` and cleaned; the result is
empty only when both elements are empty. -/
def pathJoin2 (a b : String) : String :=
  if a = "" then (if b = "" then "" else pathClean b)
  else pathClean (a ++ "/" ++ b)

/-! ## Model of Go `net/url` -/

/-- Parsed URL, modelling the fields of Go's `url.URL` that this
exporter reads or writes: scheme, host and path. -/
structure GoURL where
  scheme : String
  host : String
  path : String
deriving DecidableEq, Repr

/-- Control bytes are rejected by Go's `url.Parse`. -/
def isCtlByte (ch : Char) : Bool := ch.toNat < 32 || ch.toNat == 127

/-- Model of the scheme scan of Go's `url.Parse` (`getScheme`): returns
the index of the colon ending a scheme, `none` when the string has no
scheme, and an error when the string starts with a colon. -/
def schemeEndAux : List Char → Nat → Except String (Option Nat)
  | [], _ => Except.ok none
  | ch :: rest, i =>
    if ch.isAlpha then schemeEndAux rest (i + 1)
    else if ch.isDigit || ch == '+' || ch == '-' || ch == '.' then
      if i == 0 then Except.ok none else schemeEndAux rest (i + 1)
    else if ch == ':' then
      if i == 0 then Except.error "missing protocol scheme" else Except.ok (some i)
    else Except.ok none

/-- Model of Go's `validOptionalPort`: when the host contains a colon,
everything after the last colon must be digits. -/
def portOk (host : String) : Bool :=
  if host.toList.contains ':' then
    (host.toList.reverse.takeWhile (fun ch => ch ≠ ':')).all Char.isDigit
  else true

/-- Authority and path split of Go's `url.Parse` once the scheme has
been removed: a `//` introduces a host ending at the first slash, and
the remainder is the path; without `//` the whole remainder is the
path. -/
def parseAfterScheme (scheme : String) (rest : List Char) : Except String GoURL :=
  match rest with
  | '/' :: '/' :: after =>
    let hostChars := after.takeWhile (fun ch => ch ≠ '/')
    let host := String.mk hostChars
    let path := String.mk (after.dropWhile (fun ch => ch ≠ '/'))
    if portOk host then Except.ok ⟨scheme, host, path⟩
    else Except.error ("invalid port in host " ++ host)
  | _ => Except.ok ⟨scheme, "", String.mk rest⟩

/-- Model of Go's `url.Parse` for the URL fragment this exporter
handles (no userinfo, query, fragment, IPv6 brackets or
percent-escapes): control characters and a leading colon are rejected,
the scheme is lowercased, and host and path are split as in Go. -/
def urlParse (raw : String) : Except String GoURL :=
  if raw.toList.any isCtlByte then Except.error "net/url: invalid control character in URL"
  else match schemeEndAux raw.toList 0 with
  | Except.error e => Except.error e
  | Except.ok none => parseAfterScheme "" raw.toList
  | Except.ok (some i) =>
    parseAfterScheme (String.mk ((raw.toList.take i).map Char.toLower)) (raw.toList.drop (i + 1))

/-- Model of Go's `url.URL.String` on the modelled fields: scheme with
a colon, `//` plus host unless both scheme and host are empty, and a
separating slash when a non-empty relative path follows a host. -/
def GoURL.render (u : GoURL) : String :=
  (if u.scheme = "" then "" else u.scheme ++ ":") ++
  (if u.scheme = "" ∧ u.host = "" then "" else "//" ++ u.host) ++
  (if u.path ≠ "" ∧ (match u.path.toList with | '/' :: _ => false | _ => true) = true ∧ u.host ≠ ""
    then "/" else "") ++
  u.path

/-- Check that an `Except` carries a value, as Go's `err == nil`. -/
def exceptOk {ε α : Type} (e : Except ε α) : Bool :=
  match e with
  | Except.ok _ => true
  | Except.error _ => false

/-! ## The configuration (`config.go`) -/

/-- Sub-path constants of `config.go`. -/
def basePath : String := "api/v1/ingest/"

/-- Destination sub-path for the unstructured ingest API. -/
def unstructuredPath : String := basePath ++ "humio-unstructured"

/-- Destination sub-path for the structured ingest API. -/
def structuredPath : String := basePath ++ "humio-structured"

/-- The `Config` struct of `config.go`, with the inherited
`confighttp.HTTPClientSettings` fields the code uses (`Endpoint`,
`Headers`) flattened in, as mapstructure squashing does.  A `none`
`Headers` is Go's nil map; `Tags` is kept as an association list since
only its length is read. -/
structure Config where
  IngestToken : String
  Endpoint : String
  Headers : Option HMap
  DisableCompression : Bool
  Tags : List (String × String)
  DisableServiceTag : Bool
  unstructuredEndpoint : Option GoURL
  structuredEndpoint : Option GoURL
deriving DecidableEq, Repr

/-- Header lookup through the possibly-nil map, as Go's read of
`c.Headers[k]` (reading a nil map yields `ok = false`). -/
def Config.header (c : Config) (k : String) : Option String :=
  match c.Headers with
  | none => none
  | some m => hmGet m k

/-- The method `getEndpoint` of `config.go`: parse the endpoint and
join the destination onto its path with `path.Join`. -/
def Config.getEndpoint (c : Config) (dest : String) : Except String GoURL :=
  match urlParse c.Endpoint with
  | Except.error e => Except.error e
  | Except.ok res => Except.ok { res with path := pathJoin2 res.path dest }

/-- Condition of the fifth check of `Validate`: a `content-type` header
is present and differs from `application/json`. -/
def contentTypeBad (c : Config) : Bool :=
  match c.header "content-type" with
  | some ct => ct != "application/json"
  | none => false

/-- Condition of the seventh check of `Validate`: a `content-encoding`
header is present and either compression is disabled or the value is
not `gzip`. -/
def contentEncodingBad (c : Config) : Bool :=
  match c.header "content-encoding" with
  | some enc => c.DisableCompression || enc != "gzip"
  | none => false

/-- The method `Validate` of `config.go`: a pure check sequence
returning the message of the first violated invariant, `none` on
success.  The Go method reads its receiver and never assigns to it. -/
def Config.Validate (c : Config) : Option String :=
  if c.IngestToken == "" then some "requires an ingest_token"
  else if c.Endpoint == "" then some "requires an endpoint"
  else if c.DisableServiceTag && c.Tags.length == 0 then
    some "requires at least one custom tag when disabling service tag"
  else if !(exceptOk (c.getEndpoint unstructuredPath)) then
    some ("unable to create URL for unstructured ingest API, endpoint "
      ++ c.Endpoint ++ " is invalid")
  else if contentTypeBad c then
    some "the Content-Type must be application/json, which is also the default for this header"
  else if (c.header "authorization").isSome then
    some "the Authorization header must not be overwritten, since it is automatically generated from the ingest token"
  else if contentEncodingBad c then
    some "the Content-Encoding header must be gzip when using compression, and empty when compression is disabled"
  else none

/-- Header updates of `sanitize` up to and including the
`content-encoding` step: force `content-type` and `authorization`, then
set `content-encoding` to `gzip` unless compression is disabled. -/
def shStep3 (t : String) (d : Bool) (m : HMap) : HMap :=
  let hs1 := hmSet m "content-type" "application/json"
  let hs2 := hmSet hs1 "authorization" ("Bearer " ++ t)
  if d then hs2 else hmSet hs2 "content-encoding" "gzip"

/-- All header updates of `sanitize`: after `shStep3`, a default
`user-agent` is added when none is present. -/
def sanitizeHeaders (t : String) (d : Bool) (m : HMap) : HMap :=
  match hmGet (shStep3 t d m) "user-agent" with
  | some _ => shStep3 t d m
  | none => hmSet (shStep3 t d m) "user-agent" "opentelemetry-collector-contrib Humio"

/-- The method `sanitize` of `config.go`.  The Go method mutates its
receiver; here it returns the updated configuration together with the
error (`none` on success).  On the error path Go returns before any
assignment, so the configuration comes back unchanged; on success the
two endpoints are stored, a nil header map is replaced by an empty one,
and the header updates of `sanitizeHeaders` are applied. -/
def Config.sanitize (c : Config) : Config × Option String :=
  match c.getEndpoint structuredPath, c.getEndpoint unstructuredPath with
  | Except.ok s, Except.ok u =>
    ({ c with
        structuredEndpoint := some s,
        unstructuredEndpoint := some u,
        Headers :=
          some (sanitizeHeaders c.IngestToken c.DisableCompression (c.Headers.getD [])) },
      none)
  | _, _ => (c, some ("badly formatted endpoint " ++ c.Endpoint))

/-! ## Spec-side description of `Validate` (for the refinement claim) -/

/-- Written from the spec's words: the ordered list of the seven
invariants `Validate` checks, each paired with its error message.  This
definition follows the specification text, to be compared against
`Config.Validate`, which is translated from the code. -/
def specChecks (c : Config) : List (Bool × String) :=
  [ (c.IngestToken == "", "requires an ingest_token"),
    (c.Endpoint == "", "requires an endpoint"),
    (c.DisableServiceTag && c.Tags.isEmpty,
      "requires at least one custom tag when disabling service tag"),
    (!(exceptOk (c.getEndpoint unstructuredPath)),
      "unable to create URL for unstructured ingest API, endpoint "
        ++ c.Endpoint ++ " is invalid"),
    (contentTypeBad c,
      "the Content-Type must be application/json, which is also the default for this header"),
    ((c.header "authorization").isSome,
      "the Authorization header must not be overwritten, since it is automatically generated from the ingest token"),
    (contentEncodingBad c,
      "the Content-Encoding header must be gzip when using compression, and empty when compression is disabled") ]

/-- Written from the spec's words: the error of the earliest violated
check, `none` when no check is violated (short-circuit, first failure
wins). -/
def specFirstViolation (c : Config) : Option String :=
  (List.find? (fun p => p.1) (specChecks c)).map Prod.snd

/-! ## Lemmas about map update -/

theorem hmGet_hmSet_self (m : HMap) (k v : String) :
    hmGet (hmSet m k v) k = some v := by
  induction m with
  | nil => simp [hmSet, hmGet]
  | cons p rest ih =>
    by_cases h : p.1 = k <;> simp [hmSet, hmGet, h, ih]

theorem hmGet_hmSet_other (m : HMap) (k v k2 : String) (h : k ≠ k2) :
    hmGet (hmSet m k v) k2 = hmGet m k2 := by
  induction m with
  | nil => simp [hmSet, hmGet, h]
  | cons p rest ih =>
    by_cases h0 : p.1 = k
    · simp [hmSet, hmGet, h0, h]
    · simp [hmSet, hmGet, h0, ih]

theorem hmSet_get_same (m : HMap) (k v : String) (h : hmGet m k = some v) :
    hmSet m k v = m := by
  induction m with
  | nil => simp [hmGet] at h
  | cons p rest ih =>
    obtain ⟨k0, v0⟩ := p
    by_cases h0 : k0 = k
    · simp [hmGet, h0] at h
      simp [hmSet, h0, h]
    · simp [hmGet, h0] at h
      simp [hmSet, h0, ih h]

/-! ## Lemmas about the header updates of `sanitize` -/

theorem shStep3_ct (t : String) (d : Bool) (m : HMap) :
    hmGet (shStep3 t d m) "content-type" = some "application/json" := by
  have h1 : ("authorization" : String) ≠ "content-type" := by decide
  have h2 : ("content-encoding" : String) ≠ "content-type" := by decide
  cases d <;> simp [shStep3, hmGet_hmSet_self, hmGet_hmSet_other, h1, h2]

theorem shStep3_auth (t : String) (d : Bool) (m : HMap) :
    hmGet (shStep3 t d m) "authorization" = some ("Bearer " ++ t) := by
  have h2 : ("content-encoding" : String) ≠ "authorization" := by decide
  cases d <;> simp [shStep3, hmGet_hmSet_self, hmGet_hmSet_other, h2]

theorem shStep3_enc_false (t : String) (m : HMap) :
    hmGet (shStep3 t false m) "content-encoding" = some "gzip" := by
  simp [shStep3, hmGet_hmSet_self]

theorem shStep3_enc_true (t : String) (m : HMap) :
    hmGet (shStep3 t true m) "content-encoding" = hmGet m "content-encoding" := by
  have h1 : ("content-type" : String) ≠ "content-encoding" := by decide
  have h2 : ("authorization" : String) ≠ "content-encoding" := by decide
  simp [shStep3, hmGet_hmSet_other, h1, h2]

theorem shStep3_other (t : String) (d : Bool) (m : HMap) (k : String)
    (hct : k ≠ "content-type") (ha : k ≠ "authorization")
    (he : k ≠ "content-encoding") :
    hmGet (shStep3 t d m) k = hmGet m k := by
  cases d <;>
    simp [shStep3, hmGet_hmSet_other, Ne.symm hct, Ne.symm ha, Ne.symm he]

theorem sh_get_ne_ua (t : String) (d : Bool) (m : HMap) (k : String)
    (h : k ≠ "user-agent") :
    hmGet (sanitizeHeaders t d m) k = hmGet (shStep3 t d m) k := by
  cases hua : hmGet (shStep3 t d m) "user-agent" <;>
    simp [sanitizeHeaders, hua, hmGet_hmSet_other, Ne.symm h]

theorem sh_ct (t : String) (d : Bool) (m : HMap) :
    hmGet (sanitizeHeaders t d m) "content-type" = some "application/json" := by
  rw [sh_get_ne_ua t d m _ (by decide)]
  exact shStep3_ct t d m

theorem sh_auth (t : String) (d : Bool) (m : HMap) :
    hmGet (sanitizeHeaders t d m) "authorization" = some ("Bearer " ++ t) := by
  rw [sh_get_ne_ua t d m _ (by decide)]
  exact shStep3_auth t d m

theorem sh_enc_false (t : String) (m : HMap) :
    hmGet (sanitizeHeaders t false m) "content-encoding" = some "gzip" := by
  rw [sh_get_ne_ua t false m _ (by decide)]
  exact shStep3_enc_false t m

theorem sh_enc_true (t : String) (m : HMap) :
    hmGet (sanitizeHeaders t true m) "content-encoding" = hmGet m "content-encoding" := by
  rw [sh_get_ne_ua t true m _ (by decide)]
  exact shStep3_enc_true t m

theorem sh_other (t : String) (d : Bool) (m : HMap) (k : String)
    (hct : k ≠ "content-type") (ha : k ≠ "authorization")
    (he : k ≠ "content-encoding") (hu : k ≠ "user-agent") :
    hmGet (sanitizeHeaders t d m) k = hmGet m k := by
  rw [sh_get_ne_ua t d m _ hu]
  exact shStep3_other t d m k hct ha he

theorem sh_ua_isSome (t : String) (d : Bool) (m : HMap) :
    (hmGet (sanitizeHeaders t d m) "user-agent").isSome = true := by
  cases hua : hmGet (shStep3 t d m) "user-agent" <;>
    simp [sanitizeHeaders, hua, hmGet_hmSet_self]

theorem sh_ua_default (t : String) (d : Bool) (m : HMap)
    (h : hmGet m "user-agent" = none) :
    hmGet (sanitizeHeaders t d m) "user-agent"
      = some "opentelemetry-collector-contrib Humio" := by
  have h3 : hmGet (shStep3 t d m) "user-agent" = none := by
    rw [shStep3_other t d m _ (by decide) (by decide) (by decide)]
    exact h
  simp [sanitizeHeaders, h3, hmGet_hmSet_self]

theorem shStep3_of_sanitized (t : String) (d : Bool) (m : HMap) :
    shStep3 t d (sanitizeHeaders t d m) = sanitizeHeaders t d m := by
  simp only [shStep3]
  rw [hmSet_get_same _ _ _ (sh_ct t d m)]
  rw [hmSet_get_same _ _ _ (sh_auth t d m)]
  cases d
  · rw [hmSet_get_same _ _ _ (sh_enc_false t m)]
    simp
  · simp

theorem sanitizeHeaders_fixed (t : String) (d : Bool) (S : HMap)
    (h3 : shStep3 t d S = S) (hua : (hmGet S "user-agent").isSome = true) :
    sanitizeHeaders t d S = S := by
  cases hget : hmGet S "user-agent" with
  | none => rw [hget] at hua; simp at hua
  | some w => simp [sanitizeHeaders, h3, hget]

theorem sanitizeHeaders_idem (t : String) (d : Bool) (m : HMap) :
    sanitizeHeaders t d (sanitizeHeaders t d m) = sanitizeHeaders t d m :=
  sanitizeHeaders_fixed t d _ (shStep3_of_sanitized t d m) (sh_ua_isSome t d m)

/-! ## Normal forms of `sanitize` -/

theorem header_getD (c : Config) (k : String) :
    hmGet (c.Headers.getD []) k = c.header k := by
  cases h : c.Headers <;> simp [Config.header, hmGet, h]

theorem getEndpoint_exceptOk (c : Config) (dest : String) :
    exceptOk (c.getEndpoint dest) = exceptOk (urlParse c.Endpoint) := by
  cases h : urlParse c.Endpoint <;> simp [Config.getEndpoint, h, exceptOk]

theorem sanitize_parse_error (c : Config) (e : String)
    (hp : urlParse c.Endpoint = Except.error e) :
    c.sanitize = (c, some ("badly formatted endpoint " ++ c.Endpoint)) := by
  simp [Config.sanitize, Config.getEndpoint, hp]

theorem sanitize_parse_ok (c : Config) (r : GoURL)
    (hp : urlParse c.Endpoint = Except.ok r) :
    c.sanitize =
      ({ c with
          structuredEndpoint := some { r with path := pathJoin2 r.path structuredPath },
          unstructuredEndpoint := some { r with path := pathJoin2 r.path unstructuredPath },
          Headers :=
            some (sanitizeHeaders c.IngestToken c.DisableCompression (c.Headers.getD [])) },
        none) := by
  simp [Config.sanitize, Config.getEndpoint, hp]

theorem sanitize_snd_none_iff (c : Config) :
    (c.sanitize).2 = none ↔ exceptOk (urlParse c.Endpoint) = true := by
  cases h : urlParse c.Endpoint with
  | error e => simp [sanitize_parse_error c e h, exceptOk]
  | ok r => simp [sanitize_parse_ok c r h, exceptOk]

/-! ## Concrete configurations for witnesses -/

/-- Configuration of the spec's running example: token `abc123`,
endpoint `https://cloud.example.com`, compression enabled, no headers. -/
def cEx : Config :=
  { IngestToken := "abc123", Endpoint := "https://cloud.example.com",
    Headers := none, DisableCompression := false, Tags := [],
    DisableServiceTag := false, unstructuredEndpoint := none,
    structuredEndpoint := none }

/-- Running example with an endpoint that carries a base path. -/
def cBase : Config := { cEx with Endpoint := "https://cloud.example.com/base/" }

/-- Running example with an endpoint that fails URL parsing (leading
colon, so Go reports a missing protocol scheme). -/
def cBad : Config := { cEx with Endpoint := ":foo" }

/-- Running example with a conflicting `content-encoding` header. -/
def cEnc : Config := { cEx with Headers := some [("content-encoding", "bad")] }

/-- Running example with mixed-capitalization header keys. -/
def cMix : Config :=
  { cEx with Headers := some [("Authorization", "custom"), ("Content-Type", "text/plain")] }

/-- Running example with compression disabled and a user-supplied
lowercase `content-encoding` header. -/
def cCE : Config :=
  { cEx with DisableCompression := true, Headers := some [("content-encoding", "gzip")] }

/-- Running example with compression disabled and no headers. -/
def cDC : Config := { cEx with DisableCompression := true }

/-- Configuration with empty endpoint and empty ingest token. -/
def cEmpty : Config := { cEx with Endpoint := "", IngestToken := "" }

/-! ## Claim theorems -/

/-- C1: `Validate` is a pure function of the configuration that returns
the error of the first violated invariant, the seven invariants being
checked in exactly the spec's order (short-circuit, first failure wins),
and returns success exactly when no invariant is violated. -/
theorem C1_validate_first_violation (c : Config) :
    c.Validate = specFirstViolation c ∧
    (c.Validate = none ↔ ∀ p ∈ specChecks c, p.1 = false) := by
  have hlen : (c.Tags.length == 0) = c.Tags.isEmpty := by cases c.Tags <;> rfl
  have hmain : c.Validate = specFirstViolation c := by
    unfold Config.Validate specFirstViolation specChecks
    rw [hlen]
    cases (c.IngestToken == "") <;>
      cases (c.Endpoint == "") <;>
        cases (c.DisableServiceTag && c.Tags.isEmpty) <;>
          cases (exceptOk (c.getEndpoint unstructuredPath)) <;>
            cases (contentTypeBad c) <;>
              cases ((c.header "authorization").isSome) <;>
                cases (contentEncodingBad c) <;>
                  simp [List.find?]
  refine ⟨hmain, ?_⟩
  rw [hmain]
  simp [specFirstViolation, List.find?_eq_none]

/-- C2: for every configuration on which `sanitize` succeeds, the final
headers map `content-type` to `application/json` and `authorization` to
`Bearer ` followed by the ingest token (set unconditionally), map
`content-encoding` to `gzip` when compression is not disabled, the
headers mapping exists, and a default `user-agent` is set when none was
present. -/
theorem C2_sanitize_sets_required_headers (c c2 : Config) (h : c.sanitize = (c2, none)) :
    c2.header "content-type" = some "application/json" ∧
    c2.header "authorization" = some ("Bearer " ++ c.IngestToken) ∧
    (c.DisableCompression = false → c2.header "content-encoding" = some "gzip") ∧
    c2.Headers.isSome = true ∧
    (c.header "user-agent" = none →
      c2.header "user-agent" = some "opentelemetry-collector-contrib Humio") := by
  cases hp : urlParse c.Endpoint with
  | error e => rw [sanitize_parse_error c e hp] at h; simp at h
  | ok r =>
    rw [sanitize_parse_ok c r hp] at h
    have hc2 : c2 = { c with
        structuredEndpoint := some { r with path := pathJoin2 r.path structuredPath },
        unstructuredEndpoint := some { r with path := pathJoin2 r.path unstructuredPath },
        Headers :=
          some (sanitizeHeaders c.IngestToken c.DisableCompression (c.Headers.getD [])) } := by
      have hfst := congrArg Prod.fst h
      simpa using hfst.symm
    subst hc2
    refine ⟨?_, ?_, ?_, ?_, ?_⟩
    · simpa [Config.header] using
        sh_ct c.IngestToken c.DisableCompression (c.Headers.getD [])
    · simpa [Config.header] using
        sh_auth c.IngestToken c.DisableCompression (c.Headers.getD [])
    · intro hd
      simpa [Config.header, hd] using sh_enc_false c.IngestToken (c.Headers.getD [])
    · simp
    · intro hu
      have hm : hmGet (c.Headers.getD []) "user-agent" = none := by
        rw [header_getD]; exact hu
      simpa [Config.header] using
        sh_ua_default c.IngestToken c.DisableCompression (c.Headers.getD []) hm

/-- Witness for C2: on the spec's example configuration the derived
headers are exactly as claimed. -/
theorem C2_sanitize_sets_required_headers_witness :
    (cEx.sanitize).1.header "content-type" = some "application/json" ∧
    (cEx.sanitize).1.header "authorization" = some "Bearer abc123" ∧
    (cEx.sanitize).1.header "content-encoding" = some "gzip" ∧
    (cEx.sanitize).1.Headers.isSome = true ∧
    (cEx.sanitize).1.header "user-agent" = some "opentelemetry-collector-contrib Humio" := by
  have h := C2_sanitize_sets_required_headers cEx (cEx.sanitize).1 (by decide)
  exact ⟨h.1, h.2.1, h.2.2.1 rfl, h.2.2.2.1, h.2.2.2.2 (by decide)⟩

/-- C3: `sanitize` is idempotent: when it succeeds once, a second call
also succeeds and returns the configuration unchanged, so the derived
endpoints and the headers are identical and no header key is removed. -/
theorem C3_sanitize_idempotent (c c1 : Config) (h : c.sanitize = (c1, none)) :
    c1.sanitize = (c1, none) := by
  cases hp : urlParse c.Endpoint with
  | error e => rw [sanitize_parse_error c e hp] at h; simp at h
  | ok r =>
    rw [sanitize_parse_ok c r hp] at h
    have hc1 : c1 = { c with
        structuredEndpoint := some { r with path := pathJoin2 r.path structuredPath },
        unstructuredEndpoint := some { r with path := pathJoin2 r.path unstructuredPath },
        Headers :=
          some (sanitizeHeaders c.IngestToken c.DisableCompression (c.Headers.getD [])) } := by
      have hfst := congrArg Prod.fst h
      simpa using hfst.symm
    have hE : c1.Endpoint = c.Endpoint := by rw [hc1]
    have hp1 : urlParse c1.Endpoint = Except.ok r := by rw [hE]; exact hp
    rw [sanitize_parse_ok c1 r hp1, hc1]
    simp [sanitizeHeaders_idem]

/-- Witness for C3: second sanitization of the example configuration
succeeds and changes nothing. -/
theorem C3_sanitize_idempotent_witness :
    ((cEx.sanitize).1).sanitize = ((cEx.sanitize).1, none) :=
  C3_sanitize_idempotent cEx (cEx.sanitize).1 (by decide)

/-- C4: the endpoint derivation joins the fixed sub-paths onto the base
endpoint with a single clean separator: from
`https://cloud.example.com` it derives the structured and unstructured
ingest URLs, and from `https://cloud.example.com/base/` it derives the
path `/base/api/v1/ingest/humio-structured`. -/
theorem C4_endpoint_join :
    ((cEx.sanitize).1.structuredEndpoint.map GoURL.render)
        = some "https://cloud.example.com/api/v1/ingest/humio-structured" ∧
    ((cEx.sanitize).1.unstructuredEndpoint.map GoURL.render)
        = some "https://cloud.example.com/api/v1/ingest/humio-unstructured" ∧
    (cEx.sanitize).2 = none ∧
    ((cBase.sanitize).1.structuredEndpoint.map GoURL.path)
        = some "/base/api/v1/ingest/humio-structured" ∧
    (cBase.sanitize).2 = none := by decide

/-- C5: past the first six checks, `Validate` fails exactly when a
`content-encoding` header is present together with disabled compression
or a value other than `gzip`; with the header absent it succeeds
regardless of `DisableCompression`. -/
theorem C5_content_encoding_rule (c : Config)
    (h1 : c.IngestToken ≠ "") (h2 : c.Endpoint ≠ "")
    (h3 : (c.DisableServiceTag && c.Tags.length == 0) = false)
    (h4 : exceptOk (c.getEndpoint unstructuredPath) = true)
    (h5 : contentTypeBad c = false)
    (h6 : (c.header "authorization").isSome = false) :
    ((c.Validate).isSome = true ↔
      ∃ enc, c.header "content-encoding" = some enc ∧
        (c.DisableCompression = true ∨ enc ≠ "gzip")) ∧
    (c.header "content-encoding" = none → c.Validate = none) := by
  have hv : c.Validate =
      if contentEncodingBad c then
        some "the Content-Encoding header must be gzip when using compression, and empty when compression is disabled"
      else none := by
    simp [Config.Validate, h1, h2, h3, h4, h5, h6]
  constructor
  · rw [hv]
    cases henc : c.header "content-encoding" with
    | none => simp [contentEncodingBad, henc]
    | some enc =>
      cases hd : c.DisableCompression <;> by_cases hg : enc = "gzip" <;>
        simp [contentEncodingBad, henc, hd, hg]
  · intro henc
    rw [hv]
    simp [contentEncodingBad, henc]

/-- Witness for C5: a configuration with a conflicting
`content-encoding` header value is rejected exactly as the rule says. -/
theorem C5_content_encoding_rule_witness :
    ((cEnc.Validate).isSome = true ↔
      ∃ enc, cEnc.header "content-encoding" = some enc ∧
        (cEnc.DisableCompression = true ∨ enc ≠ "gzip")) ∧
    (cEnc.header "content-encoding" = none → cEnc.Validate = none) :=
  C5_content_encoding_rule cEnc (by decide) (by decide) (by decide) (by decide)
    (by decide) (by decide)

/-- C6: the endpoint probe of `Validate` and the derivation of
`sanitize` share the same joining semantics: the probe fails exactly
when `sanitize` fails, and on an endpoint that fails URL parsing both
report their endpoint error (given the three earlier checks pass). -/
theorem C6_probe_and_sanitize_agree (c : Config) :
    (exceptOk (c.getEndpoint unstructuredPath) = false ↔ (c.sanitize).2.isSome = true) ∧
    (∀ e, urlParse c.Endpoint = Except.error e →
      c.IngestToken ≠ "" → c.Endpoint ≠ "" →
      (c.DisableServiceTag && c.Tags.length == 0) = false →
      c.Validate = some ("unable to create URL for unstructured ingest API, endpoint "
          ++ c.Endpoint ++ " is invalid") ∧
      (c.sanitize).2 = some ("badly formatted endpoint " ++ c.Endpoint)) := by
  constructor
  · rw [getEndpoint_exceptOk]
    cases hp : urlParse c.Endpoint with
    | error e => simp [sanitize_parse_error c e hp, exceptOk]
    | ok r => simp [sanitize_parse_ok c r hp, exceptOk]
  · intro e hp h1 h2 h3
    have h4 : exceptOk (c.getEndpoint unstructuredPath) = false := by
      rw [getEndpoint_exceptOk, hp]; rfl
    constructor
    · simp [Config.Validate, h1, h2, h3, h4]
    · simp [sanitize_parse_error c e hp]

/-- Witness for C6: on the malformed endpoint `:foo` both `Validate`
and `sanitize` report their endpoint error. -/
theorem C6_probe_and_sanitize_agree_witness :
    cBad.Validate
        = some "unable to create URL for unstructured ingest API, endpoint :foo is invalid" ∧
    (cBad.sanitize).2 = some "badly formatted endpoint :foo" :=
  (C6_probe_and_sanitize_agree cBad).2 "missing protocol scheme" rfl
    (by decide) (by decide) (by decide)

/-- C7: `sanitize` is atomic: when it returns an error the
configuration is entirely unchanged, so no header is added, the headers
mapping is not created and no derived endpoint is stored. -/
theorem C7_sanitize_leaves_config_on_error (c c2 : Config) (e : String)
    (h : c.sanitize = (c2, some e)) : c2 = c := by
  cases hp : urlParse c.Endpoint with
  | error e0 =>
    rw [sanitize_parse_error c e0 hp] at h
    have hfst := congrArg Prod.fst h
    simpa using hfst.symm
  | ok r => rw [sanitize_parse_ok c r hp] at h; simp at h

/-- Witness for C7: the failing example configuration comes back
unchanged from `sanitize`. -/
theorem C7_sanitize_leaves_config_on_error_witness : (cBad.sanitize).1 = cBad :=
  C7_sanitize_leaves_config_on_error cBad (cBad.sanitize).1
    "badly formatted endpoint :foo" (by decide)

/-- C8 counterexample: with compression disabled and a user-supplied
`content-encoding` header, `sanitize` succeeds and the entry is still
present afterwards, refuting the claim that the final headers of every
such configuration contain no `content-encoding` entry. -/
theorem C8_counterexample :
    cCE.DisableCompression = true ∧
    (cCE.sanitize).2 = none ∧
    (cCE.sanitize).1.header "content-encoding" = some "gzip" ∧
    ¬ (cCE.sanitize).1.header "content-encoding" = none := by decide

/-- C8 (amended): for every configuration with compression disabled
whose headers contain no `content-encoding` entry, after a successful
`sanitize` the headers still contain no `content-encoding` entry:
`sanitize` never sets it when compression is disabled. -/
theorem C8_no_encoding_when_disabled (c c2 : Config)
    (hd : c.DisableCompression = true)
    (he : c.header "content-encoding" = none)
    (h : c.sanitize = (c2, none)) :
    c2.header "content-encoding" = none := by
  cases hp : urlParse c.Endpoint with
  | error e => rw [sanitize_parse_error c e hp] at h; simp at h
  | ok r =>
    rw [sanitize_parse_ok c r hp] at h
    have hc2 : c2 = { c with
        structuredEndpoint := some { r with path := pathJoin2 r.path structuredPath },
        unstructuredEndpoint := some { r with path := pathJoin2 r.path unstructuredPath },
        Headers :=
          some (sanitizeHeaders c.IngestToken c.DisableCompression (c.Headers.getD [])) } := by
      have hfst := congrArg Prod.fst h
      simpa using hfst.symm
    subst hc2
    have hm : hmGet (c.Headers.getD []) "content-encoding" = none := by
      rw [header_getD]; exact he
    simp only [Config.header, hd]
    rw [sh_enc_true]
    exact hm

/-- Witness for C8 (amended): with compression disabled and no headers
given, the sanitized configuration has no `content-encoding` entry. -/
theorem C8_no_encoding_when_disabled_witness :
    (cDC.sanitize).1.header "content-encoding" = none :=
  C8_no_encoding_when_disabled cDC (cDC.sanitize).1 rfl (by decide) (by decide)

/-- C9: the header checks are case-sensitive on the exact lowercase
names: a configuration carrying only a capitalized `Authorization` (and
`Content-Type`) key passes the header checks of `Validate`, and
`sanitize` adds separate all-lowercase entries while leaving the
capitalized entry in place. -/
theorem C9_header_checks_case_sensitive (c : Config) (v : String)
    (hA : c.header "Authorization" = some v)
    (h1 : c.IngestToken ≠ "") (h2 : c.Endpoint ≠ "")
    (h3 : (c.DisableServiceTag && c.Tags.length == 0) = false)
    (h4 : exceptOk (c.getEndpoint unstructuredPath) = true)
    (h5 : contentTypeBad c = false)
    (h6 : c.header "authorization" = none)
    (h7 : contentEncodingBad c = false) :
    c.Validate = none ∧
    (c.sanitize).2 = none ∧
    (c.sanitize).1.header "authorization" = some ("Bearer " ++ c.IngestToken) ∧
    (c.sanitize).1.header "content-type" = some "application/json" ∧
    (c.sanitize).1.header "Authorization" = some v := by
  have hval : c.Validate = none := by
    simp [Config.Validate, h1, h2, h3, h4, h5, h6, h7]
  cases hp : urlParse c.Endpoint with
  | error e =>
    exfalso
    rw [getEndpoint_exceptOk, hp] at h4
    simp [exceptOk] at h4
  | ok r =>
    rw [sanitize_parse_ok c r hp]
    refine ⟨hval, rfl, ?_, ?_, ?_⟩
    · simpa [Config.header] using
        sh_auth c.IngestToken c.DisableCompression (c.Headers.getD [])
    · simpa [Config.header] using
        sh_ct c.IngestToken c.DisableCompression (c.Headers.getD [])
    · have hm : hmGet (c.Headers.getD []) "Authorization" = some v := by
        rw [header_getD]; exact hA
      have hpres := sh_other c.IngestToken c.DisableCompression (c.Headers.getD [])
        "Authorization" (by decide) (by decide) (by decide) (by decide)
      simp only [Config.header]
      rw [hpres]
      exact hm

/-- Witness for C9: a configuration with `Authorization` and
`Content-Type` capitalized passes validation, and after sanitization
both the capitalized and the new lowercase entries are present. -/
theorem C9_header_checks_case_sensitive_witness :
    cMix.Validate = none ∧
    (cMix.sanitize).2 = none ∧
    (cMix.sanitize).1.header "authorization" = some "Bearer abc123" ∧
    (cMix.sanitize).1.header "content-type" = some "application/json" ∧
    (cMix.sanitize).1.header "Authorization" = some "custom" :=
  C9_header_checks_case_sensitive cMix "custom" (by decide) (by decide) (by decide)
    (by decide) (by decide) (by decide) (by decide) (by decide)

/-- C10: `sanitize` validates nothing beyond URL construction: with an
empty endpoint it succeeds and derives relative URLs with no host and
the bare ingest sub-paths, and with an empty ingest token (and a
parseable endpoint) it succeeds and sets `authorization` to exactly
`Bearer `. -/
theorem C10_sanitize_validates_nothing (c : Config) :
    (c.Endpoint = "" →
      (c.sanitize).2 = none ∧
      (c.sanitize).1.structuredEndpoint =
        some { scheme := "", host := "", path := "api/v1/ingest/humio-structured" } ∧
      (c.sanitize).1.unstructuredEndpoint =
        some { scheme := "", host := "", path := "api/v1/ingest/humio-unstructured" }) ∧
    (c.IngestToken = "" → exceptOk (urlParse c.Endpoint) = true →
      (c.sanitize).2 = none ∧
      (c.sanitize).1.header "authorization" = some "Bearer ") := by
  constructor
  · intro he
    have hp : urlParse c.Endpoint = Except.ok { scheme := "", host := "", path := "" } := by
      rw [he]; rfl
    have hjs : pathJoin2 "" structuredPath = "api/v1/ingest/humio-structured" := by decide
    have hju : pathJoin2 "" unstructuredPath = "api/v1/ingest/humio-unstructured" := by decide
    rw [sanitize_parse_ok c _ hp]
    refine ⟨rfl, ?_, ?_⟩ <;> simp [hjs, hju]
  · intro ht hok
    cases hp : urlParse c.Endpoint with
    | error e => rw [hp] at hok; simp [exceptOk] at hok
    | ok r =>
      rw [sanitize_parse_ok c r hp]
      refine ⟨rfl, ?_⟩
      have hauth := sh_auth c.IngestToken c.DisableCompression (c.Headers.getD [])
      simp only [Config.header]
      rw [hauth, ht]
      rfl

/-- Witness for C10: with both endpoint and token empty, `sanitize`
succeeds, derives the relative sub-path URLs and sets the bare bearer
header. -/
theorem C10_sanitize_validates_nothing_witness :
    ((cEmpty.sanitize).2 = none ∧
      (cEmpty.sanitize).1.structuredEndpoint =
        some { scheme := "", host := "", path := "api/v1/ingest/humio-structured" } ∧
      (cEmpty.sanitize).1.unstructuredEndpoint =
        some { scheme := "", host := "", path := "api/v1/ingest/humio-unstructured" }) ∧
    ((cEmpty.sanitize).2 = none ∧
      (cEmpty.sanitize).1.header "authorization" = some "Bearer ") :=
  ⟨(C10_sanitize_validates_nothing cEmpty).1 rfl,
    (C10_sanitize_validates_nothing cEmpty).2 rfl (by decide)⟩

end Humio
